import Mathlib

/-!
Verification development for the RKLB swing-trading strategy
(src/Algorithms/space_strategy/rklb_swing.py).

The per-bar decision engine is embedded shallowly: prices and indicator
values are rationals (ℚ), timestamps are day indices (ℤ), the ISO week
number of a timestamp is supplied as part of the step input (it is a pure
attribute of the external clock), and the mutable fields of the
`RKLBSwingStrategy` object become an explicit `AlgoState` record threaded
through a step function `OnDataStep` that mirrors `OnData`.
-/

/-- Snapshot of the externally computed indicator values consumed by the
strategy on one step, together with the per-indicator readiness flags
(`IsReady` in the source). -/
structure IndicatorSnapshot where
  rsi : ℚ
  macd : ℚ
  macd_signal : ℚ
  macd_hist : ℚ
  sma_fast : ℚ
  sma_slow : ℚ
  bb_lower : ℚ
  bb_middle : ℚ
  rsi_ready : Bool
  macd_ready : Bool
  sma_fast_ready : Bool
  sma_slow_ready : Bool
deriving DecidableEq

/-- One record emitted by the `RocketLabLaunch` custom-data reader, as
consumed by `OnData`: `value` is the event kind (the reader uses 2 for a
launch-day event; `OnData` also has a branch for 1, an upcoming launch),
`daysToLaunch` is the integer form of the `DaysToLaunch` field, and
`time` is the record timestamp in day units. -/
structure LaunchData where
  value : ℕ
  mission : String
  flightNo : String
  outcome : String
  daysToLaunch : ℤ
  time : ℤ
deriving DecidableEq

/-- The launch-event tracking fields of the strategy object:
`upcoming_launch`, `days_to_launch`, `last_launch_outcome`,
`days_since_launch` (initialised to the 999 sentinel). -/
structure TrackerState where
  upcoming_launch : Bool
  days_to_launch : ℤ
  last_launch_outcome : Option String
  days_since_launch : ℤ
deriving DecidableEq

/-- Exit reason codes of the four liquidation branches of
`ManagePosition`, in source order. -/
inductive ExitReason where
  | STOP_LOSS
  | TAKE_PROFIT
  | TIME_STOP
  | TRAILING_STOP
deriving DecidableEq

/-- One reason entry appended to the `reasons` list in
`CalculateSignalScore`; each constructor carries the data interpolated
into the corresponding f-string of the source. -/
inductive Reason where
  | rsiOversoldRecovery (rsiVal : ℚ)
  | macdBullish (hist : ℚ)
  | smaUptrend (fast slow : ℚ)
  | priceAboveSMA20
  | nearBollingerLowerBand
  | launchInDays (d : ℤ)
  | postLaunchMomentum (d : ℤ)
deriving DecidableEq

/-- Order intent emitted to the broker collaborator on one step: a
market buy of `shares` (`MarketOrder`), or a liquidation
(`Liquidate`) tagged with the exit reason of the branch that fired. -/
inductive OrderEvent where
  | buy (shares : ℤ)
  | liquidate (reason : ExitReason)
deriving DecidableEq

/-- The trade-management and governor fields of the strategy object:
`entry_price`, `entry_date`, `trades_this_week`, `last_week`, the launch
tracker, and whether the portfolio currently holds the position
(`Portfolio[rklb].Invested`, assuming orders fill as requested). -/
structure AlgoState where
  entry_price : ℚ
  entry_date : Option ℤ
  trades_this_week : ℕ
  last_week : ℤ
  tracker : TrackerState
  invested : Bool
deriving DecidableEq

/-- External inputs delivered to one `OnData` call (post warm-up):
the bar timestamp as a day index, its ISO calendar week number, the
optional launch record, whether the RKLB symbol is present in the data
slice, the current security price, the portfolio cash, and the
indicator snapshot. -/
structure StepInput where
  time : ℤ
  week : ℤ
  launch : Option LaunchData
  rklb_in_data : Bool
  price : ℚ
  cash : ℚ
  ind : IndicatorSnapshot
deriving DecidableEq

/-- `self.stop_loss_pct` (5% stop loss). -/
def stop_loss_pct : ℚ := 0.05

/-- `self.take_profit_pct` (10% take profit). -/
def take_profit_pct : ℚ := 0.10

/-- `self.max_hold_days` (max 10 trading days hold). -/
def max_hold_days : ℤ := 10

/-- `self.max_trades_per_week` (5). -/
def max_trades_per_week : ℕ := 5

/-- Launch-event processing of `OnData`: the `if self.launch_data in
data` block followed by the unconditional `self.days_since_launch += 1`
increment. -/
def processLaunchEvents (t : TrackerState) (rec : Option LaunchData) : TrackerState :=
  let t1 :=
    match rec with
    | some launch =>
        if launch.value = 1 then
          { t with upcoming_launch := true, days_to_launch := launch.daysToLaunch }
        else if launch.value = 2 then
          { t with days_since_launch := 0,
                   last_launch_outcome := some launch.outcome,
                   upcoming_launch := false }
        else t
    | none => t
  { t1 with days_since_launch := t1.days_since_launch + 1 }

/-- `CalculateSignalScore`: the seven scoring predicates evaluated in
source order, each adding one point and appending one reason. Returns
the final `(score, reasons)` pair. -/
def CalculateSignalScore (price : ℚ) (ind : IndicatorSnapshot) (t : TrackerState) :
    ℕ × List Reason :=
  let sr : ℕ × List Reason := (0, [])
  let sr := if 30 < ind.rsi ∧ ind.rsi < 45 then
    (sr.1 + 1, sr.2 ++ [Reason.rsiOversoldRecovery ind.rsi]) else sr
  let sr := if ind.macd_signal < ind.macd ∧ 0 < ind.macd_hist then
    (sr.1 + 1, sr.2 ++ [Reason.macdBullish ind.macd_hist]) else sr
  let sr := if ind.sma_slow < ind.sma_fast then
    (sr.1 + 1, sr.2 ++ [Reason.smaUptrend ind.sma_fast ind.sma_slow]) else sr
  let sr := if ind.sma_fast < price then
    (sr.1 + 1, sr.2 ++ [Reason.priceAboveSMA20]) else sr
  let sr := if price < ind.bb_lower * 1.02 then
    (sr.1 + 1, sr.2 ++ [Reason.nearBollingerLowerBand]) else sr
  let sr := if t.upcoming_launch = true ∧ 1 ≤ t.days_to_launch ∧ t.days_to_launch ≤ 5 then
    (sr.1 + 1, sr.2 ++ [Reason.launchInDays t.days_to_launch]) else sr
  let sr := if t.days_since_launch ≤ 3 ∧ t.last_launch_outcome = some "Success" then
    (sr.1 + 1, sr.2 ++ [Reason.postLaunchMomentum t.days_since_launch]) else sr
  sr

/-- The `days_held` computation of `ManagePosition`:
`(self.Time - self.entry_date).days if self.entry_date else 0`. -/
def days_held (entry_date : Option ℤ) (now : ℤ) : ℤ :=
  match entry_date with
  | some d => now - d
  | none => 0

/-- `ManagePosition`: the exit-trigger chain evaluated while invested.
Returns the reason of the first branch that liquidates, or `none` when
no branch fires (including the `entry_price <= 0` defensive guard). -/
def ManagePosition (entry_price : ℚ) (entry_date : Option ℤ) (now : ℤ) (price : ℚ) :
    Option ExitReason :=
  if entry_price ≤ 0 then none
  else
    let pnl_pct := (price - entry_price) / entry_price
    let dh := days_held entry_date now
    if pnl_pct ≤ -stop_loss_pct then some ExitReason.STOP_LOSS
    else if take_profit_pct ≤ pnl_pct then some ExitReason.TAKE_PROFIT
    else if max_hold_days ≤ dh then some ExitReason.TIME_STOP
    else if 0.05 < pnl_pct then
      let trailing_stop := entry_price * 1.03
      if price ≤ trailing_stop then some ExitReason.TRAILING_STOP
      else none
    else none

/-- Python `int()` applied to a rational: truncation toward zero,
as used in `shares = int(available_cash / price)`. -/
def pyInt (q : ℚ) : ℤ := if 0 ≤ q then ⌊q⌋ else -⌊-q⌋

/-- The indicator-readiness conjunction checked before entry evaluation:
`self.rsi.IsReady and self.macd.IsReady and self.sma_fast.IsReady and
self.sma_slow.IsReady`. -/
def indicatorsReady (ind : IndicatorSnapshot) : Bool :=
  ind.rsi_ready && ind.macd_ready && ind.sma_fast_ready && ind.sma_slow_ready

/-- The weekly trade-counter reset at the top of `OnData`. -/
def weeklyReset (s : AlgoState) (week : ℤ) : AlgoState :=
  if week ≠ s.last_week then { s with trades_this_week := 0, last_week := week } else s

/-- One post-warm-up `OnData` call: weekly counter reset, launch-event
processing, data/price guards, then either position management (while
invested) or entry evaluation (while flat). Returns the updated state
and the order intent emitted on this step, if any. -/
def OnDataStep (s0 : AlgoState) (inp : StepInput) : AlgoState × Option OrderEvent :=
  let s1 := weeklyReset s0 inp.week
  let s := { s1 with tracker := processLaunchEvents s1.tracker inp.launch }
  if inp.rklb_in_data = false then (s, none)
  else if inp.price ≤ 0 then (s, none)
  else if s.invested then
    match ManagePosition s.entry_price s.entry_date inp.time inp.price with
    | some r =>
        ({ s with invested := false, entry_price := 0, entry_date := none },
         some (OrderEvent.liquidate r))
    | none => (s, none)
  else if max_trades_per_week ≤ s.trades_this_week then (s, none)
  else if indicatorsReady inp.ind = false then (s, none)
  else
    let signal_score := (CalculateSignalScore inp.price inp.ind s.tracker).1
    if 3 ≤ signal_score then
      let available_cash := inp.cash * 0.95
      let shares := pyInt (available_cash / inp.price)
      if 0 < shares then
        ({ s with invested := true, entry_price := inp.price,
                  entry_date := some inp.time,
                  trades_this_week := s.trades_this_week + 1 },
         some (OrderEvent.buy shares))
      else (s, none)
    else (s, none)

/-- The strategy state right after `Initialize` (before the first bar):
no position, counters at their sentinels. -/
def initState : AlgoState :=
  { entry_price := 0
    entry_date := none
    trades_this_week := 0
    last_week := -1
    tracker :=
      { upcoming_launch := false
        days_to_launch := 999
        last_launch_outcome := none
        days_since_launch := 999 }
    invested := false }

/-- A whole run: fold `OnDataStep` over the delivered bars, keeping the
final state. -/
def run (s : AlgoState) (inputs : List StepInput) : AlgoState :=
  inputs.foldl (fun st inp => (OnDataStep st inp).1) s

/-- Whitespace test used by Python `str.strip()` for the characters
that occur in CSV lines. -/
def isSpaceChar (c : Char) : Bool :=
  c = ' ' ∨ c = '\t' ∨ c = '\n' ∨ c = '\r'

/-- Python `str.strip()` on a character list: drop whitespace from both
ends. -/
def trimList (s : List Char) : List Char :=
  ((s.dropWhile isSpaceChar).reverse.dropWhile isSpaceChar).reverse

/-- Python `str.split(sep)` for a one-character separator, on character
lists: `splitComma [] = [[]]` mirrors `"".split(",") == [""]`. -/
def splitComma : List Char → List (List Char)
  | [] => [[]]
  | c :: cs =>
      let rest := splitComma cs
      if c = ',' then [] :: rest
      else
        match rest with
        | [] => [[c]]
        | f :: fs => (c :: f) :: fs

/-- `RocketLabLaunch.Reader`: parses one CSV line into a launch record.
Blank and header lines and lines with fewer than four fields yield
`None`; the `datetime.strptime` library call is abstracted as the
`parseDate` parameter (returning `none` exactly when it raises
`ValueError`), and the produced record always carries `Value = 2`,
`DaysToLaunch = "0"` and a timestamp at noon of the parsed day. -/
def Reader (parseDate : String → Option ℤ) (line : String) : Option LaunchData :=
  let chars := line.toList
  if trimList chars = [] ∨ List.isPrefixOf "Date".toList chars then none
  else
    match splitComma chars with
    | d0 :: d1 :: d2 :: d3 :: _ =>
        (match parseDate (String.mk (trimList d0)) with
         | some launch_date =>
             some { value := 2
                    mission := String.mk (trimList d1)
                    flightNo := String.mk (trimList d2)
                    outcome := String.mk (trimList d3)
                    daysToLaunch := 0
                    time := launch_date }
         | none => none)
    | _ => none

/-- The trailing-stop gate and its fire condition are mutually
exclusive: once the position is up more than 5%, the price is strictly
above the 3% lock-in level, so the inner liquidation test can never
succeed. -/
lemma trailing_gate_excludes_fire (e p : ℚ) (he : 0 < e)
    (h5 : (0.05 : ℚ) < (p - e) / e) : ¬ p ≤ e * 1.03 := by
  intro hle
  have hlt : (0.05 : ℚ) * e < p - e := (lt_div_iff₀ he).mp h5
  nlinarith

/-- Closed form of `ManagePosition` for a valid entry price: the
trailing-stop branch collapses to `none`. -/
lemma ManagePosition_eq (e : ℚ) (ed : Option ℤ) (now : ℤ) (p : ℚ) (he : 0 < e) :
    ManagePosition e ed now p =
      if (p - e) / e ≤ -stop_loss_pct then some ExitReason.STOP_LOSS
      else if take_profit_pct ≤ (p - e) / e then some ExitReason.TAKE_PROFIT
      else if max_hold_days ≤ days_held ed now then some ExitReason.TIME_STOP
      else none := by
  simp only [ManagePosition, if_neg (not_le_of_lt he)]
  split_ifs with h1 h2 h3 h4 h5
  · rfl
  · rfl
  · rfl
  · exact absurd h5 (trailing_gate_excludes_fire e p he h4)
  · rfl
  · rfl

/-- Claim C2: for every open position and every current price, the
trailing-stop branch of `ManagePosition` never liquidates — its
activation condition `pnl_pct > 0.05` makes its fire condition
`price <= entry_price * 1.03` false, so no step ever produces a
`TRAILING_STOP` exit. -/
theorem trailing_stop_never_fires (e : ℚ) (ed : Option ℤ) (now : ℤ) (p : ℚ) :
    ManagePosition e ed now p ≠ some ExitReason.TRAILING_STOP := by
  rcases le_or_lt e 0 with he | he
  · simp [ManagePosition, if_pos he]
  · rw [ManagePosition_eq e ed now p he]
    split_ifs <;> simp

/-- Claim C5: `ManagePosition` checks the exit triggers in the fixed
order stop-loss, take-profit, time-stop, trailing-stop; the first
condition that holds determines the single exit intent of the step (in
particular `STOP_LOSS` whenever `pnl_pct <= -stop_loss_pct`, regardless
of the later triggers), and when none of the first three holds the
result is no exit at all. -/
theorem exit_priority_first_match (e p : ℚ) (ed : Option ℤ) (now : ℤ) (he : 0 < e) :
    ((p - e) / e ≤ -stop_loss_pct →
        ManagePosition e ed now p = some ExitReason.STOP_LOSS)
    ∧ (¬((p - e) / e ≤ -stop_loss_pct) → take_profit_pct ≤ (p - e) / e →
        ManagePosition e ed now p = some ExitReason.TAKE_PROFIT)
    ∧ (¬((p - e) / e ≤ -stop_loss_pct) → ¬(take_profit_pct ≤ (p - e) / e) →
        max_hold_days ≤ days_held ed now →
        ManagePosition e ed now p = some ExitReason.TIME_STOP)
    ∧ (¬((p - e) / e ≤ -stop_loss_pct) → ¬(take_profit_pct ≤ (p - e) / e) →
        ¬(max_hold_days ≤ days_held ed now) →
        ManagePosition e ed now p = none) := by
  rw [ManagePosition_eq e ed now p he]
  refine ⟨fun h1 => ?_, fun h1 h2 => ?_, fun h1 h2 h3 => ?_, fun h1 h2 h3 => ?_⟩
  · rw [if_pos h1]
  · rw [if_neg h1, if_pos h2]
  · rw [if_neg h1, if_neg h2, if_pos h3]
  · rw [if_neg h1, if_neg h2, if_neg h3]

/-- Witness for C5: a position entered at 100, seen at price 90 on day
20 — the stop-loss condition (10% loss) and the time-stop condition
(20 days held) hold simultaneously, and the stop-loss wins. -/
theorem exit_priority_first_match_witness :
    (0 : ℚ) < 100 ∧ ManagePosition 100 (some 0) 20 90 = some ExitReason.STOP_LOSS := by
  refine ⟨by norm_num, ?_⟩
  exact (exit_priority_first_match 100 90 (some 0) 20 (by norm_num)).1
    (by norm_num [stop_loss_pct])

/-- Claim C9: while `pnl_pct` stays strictly between the stop-loss and
take-profit levels, `ManagePosition` fires `TIME_STOP` exactly when
`days_held` has reached `max_hold_days`, and produces no exit on any
earlier step. -/
theorem time_stop_fires_exactly_on_day_ten (e p : ℚ) (ed : Option ℤ) (now : ℤ)
    (he : 0 < e) (hlo : -stop_loss_pct < (p - e) / e)
    (hhi : (p - e) / e < take_profit_pct) :
    (ManagePosition e ed now p = some ExitReason.TIME_STOP ↔
      max_hold_days ≤ days_held ed now)
    ∧ (days_held ed now < max_hold_days → ManagePosition e ed now p = none) := by
  rw [ManagePosition_eq e ed now p he, if_neg (not_le.mpr hlo), if_neg (not_le.mpr hhi)]
  constructor
  · split_ifs with h
    · simp [h]
    · simp [h]
  · intro hlt
    rw [if_neg (not_le.mpr hlt)]

/-- Witness for C9: a flat-pnl position entered on day 0 is not closed
on day 9 and is closed by `TIME_STOP` on day 10. -/
theorem time_stop_fires_exactly_on_day_ten_witness :
    ManagePosition 100 (some 0) 10 100 = some ExitReason.TIME_STOP
    ∧ ManagePosition 100 (some 0) 9 100 = none := by
  constructor
  · exact (time_stop_fires_exactly_on_day_ten 100 100 (some 0) 10 (by norm_num)
      (by norm_num [stop_loss_pct]) (by norm_num [take_profit_pct])).1.mpr
      (by norm_num [days_held, max_hold_days])
  · exact (time_stop_fires_exactly_on_day_ten 100 100 (some 0) 9 (by norm_num)
      (by norm_num [stop_loss_pct]) (by norm_num [take_profit_pct])).2
      (by norm_num [days_held, max_hold_days])

/-- Claim C1 (failing input): in the spec scenario — entry at 100,
price 106 on one step (no exit), price 102 on the next — the code
produces no exit intent on either step; in particular no
`TRAILING_STOP`, because the gate `pnl_pct > 0.05` is evaluated on the
current price (2% at 102) rather than on the prior peak. -/
theorem trailing_scenario_produces_no_exit :
    ManagePosition 100 (some 0) 0 106 = none
    ∧ ManagePosition 100 (some 0) 1 102 = none := by
  constructor <;>
    norm_num [ManagePosition, days_held, stop_loss_pct, take_profit_pct, max_hold_days]

/-- Claim C3 (counterexample): after processing an occurred record, the
tracker does not end the step at `days_since_launch = 0` — the reset
happens inside the event block and the unconditional increment runs
after it, so the step ends at 1. -/
theorem occurred_step_ends_nonzero :
    ¬ ((processLaunchEvents
        { upcoming_launch := false, days_to_launch := 999,
          last_launch_outcome := none, days_since_launch := 999 }
        (some { value := 2, mission := "Electron", flightNo := "7",
                outcome := "Success", daysToLaunch := 0, time := 0 })).days_since_launch
        = 0) := by
  decide

/-- Claim C3 (amended): the reset of `days_since_launch` to 0 happens
first, inside the occurred-record branch, and the unconditional +1
increment happens after it, so the step that processes an occurred
record ends with `days_since_launch = 1`, and three subsequent steps
with no record end with `days_since_launch = 4`. -/
theorem days_since_reset_precedes_increment (t : TrackerState) (rec : LaunchData)
    (h : rec.value = 2) :
    (processLaunchEvents t (some rec)).days_since_launch = 1
    ∧ (processLaunchEvents (processLaunchEvents (processLaunchEvents
        (processLaunchEvents t (some rec)) none) none) none).days_since_launch = 4 := by
  constructor <;> simp [processLaunchEvents, h]

/-- Witness for the amended C3 at a concrete tracker and record. -/
theorem days_since_reset_precedes_increment_witness :
    ({ value := 2, mission := "Electron", flightNo := "7", outcome := "Success",
       daysToLaunch := 0, time := 0 } : LaunchData).value = 2
    ∧ ((processLaunchEvents
        { upcoming_launch := false, days_to_launch := 999,
          last_launch_outcome := none, days_since_launch := 999 }
        (some { value := 2, mission := "Electron", flightNo := "7",
                outcome := "Success", daysToLaunch := 0, time := 0 })).days_since_launch = 1
      ∧ (processLaunchEvents (processLaunchEvents (processLaunchEvents
          (processLaunchEvents
            { upcoming_launch := false, days_to_launch := 999,
              last_launch_outcome := none, days_since_launch := 999 }
            (some { value := 2, mission := "Electron", flightNo := "7",
                    outcome := "Success", daysToLaunch := 0, time := 0 })) none) none)
          none).days_since_launch = 4) :=
  ⟨rfl, days_since_reset_precedes_increment _ _ rfl⟩

set_option maxHeartbeats 1600000 in
/-- Claim C7: the signal score equals the number of satisfied scoring
predicates — hence always lies in [0,7] — and the reasons list carries
exactly one entry per satisfied predicate (in evaluation order), so its
length equals the score; the scorer is a pure function of
`(price, indicators, trackerState)`. -/
theorem signal_score_counts_predicates (price : ℚ) (ind : IndicatorSnapshot)
    (t : TrackerState) :
    (CalculateSignalScore price ind t).1 = (CalculateSignalScore price ind t).2.length
    ∧ (CalculateSignalScore price ind t).1 ≤ 7
    ∧ (CalculateSignalScore price ind t).1 =
        (if 30 < ind.rsi ∧ ind.rsi < 45 then 1 else 0)
      + (if ind.macd_signal < ind.macd ∧ 0 < ind.macd_hist then 1 else 0)
      + (if ind.sma_slow < ind.sma_fast then 1 else 0)
      + (if ind.sma_fast < price then 1 else 0)
      + (if price < ind.bb_lower * 1.02 then 1 else 0)
      + (if t.upcoming_launch = true ∧ 1 ≤ t.days_to_launch ∧ t.days_to_launch ≤ 5
          then 1 else 0)
      + (if t.days_since_launch ≤ 3 ∧ t.last_launch_outcome = some "Success"
          then 1 else 0) := by
  simp only [CalculateSignalScore]
  split_ifs <;> simp_arith

/-- Every record `Reader` emits carries the launch-day kind. -/
lemma Reader_value_eq_two (pd : String → Option ℤ) (line : String) (r : LaunchData)
    (hr : Reader pd line = some r) : r.value = 2 := by
  simp only [Reader] at hr
  split at hr
  · exact absurd hr (by simp)
  · split at hr
    · split at hr
      · rw [Option.some.injEq] at hr
        subst hr
        rfl
      · exact absurd hr (by simp)
    · exact absurd hr (by simp)

/-- Processing any record that is not of the upcoming kind preserves a
cleared `upcoming_launch` flag. -/
lemma processLaunchEvents_upcoming_false (t : TrackerState) (rec : Option LaunchData)
    (hrec : ∀ l, rec = some l → l.value = 2) (ht : t.upcoming_launch = false) :
    (processLaunchEvents t rec).upcoming_launch = false := by
  cases rec with
  | none => simpa [processLaunchEvents] using ht
  | some l =>
      have hv : l.value = 2 := hrec l rfl
      simp [processLaunchEvents, hv]

/-- The weekly reset leaves the tracker untouched. -/
lemma weeklyReset_tracker (s : AlgoState) (w : ℤ) :
    (weeklyReset s w).tracker = s.tracker := by
  unfold weeklyReset
  split <;> rfl

/-- One step's final tracker is exactly the launch-event advance of the
incoming tracker: no later phase of `OnData` writes tracker fields. -/
lemma OnDataStep_tracker (s : AlgoState) (inp : StepInput) :
    (OnDataStep s inp).1.tracker = processLaunchEvents s.tracker inp.launch := by
  simp only [OnDataStep, weeklyReset_tracker]
  split_ifs <;> try rfl
  split <;> rfl

/-- Over a whole run whose launch records are all of the launch-day
kind, the `upcoming_launch` flag stays cleared. -/
lemma run_upcoming_false (s : AlgoState) (inputs : List StepInput)
    (hin : ∀ i ∈ inputs, ∀ l, i.launch = some l → l.value = 2)
    (hs : s.tracker.upcoming_launch = false) :
    (run s inputs).tracker.upcoming_launch = false := by
  induction inputs generalizing s with
  | nil => simpa [run] using hs
  | cons i rest ih =>
      have hstep : ((OnDataStep s i).1).tracker.upcoming_launch = false := by
        rw [OnDataStep_tracker]
        exact processLaunchEvents_upcoming_false s.tracker i.launch
          (fun l hl => hin i (List.mem_cons_self i rest) l hl) hs
      have hrest : ∀ j ∈ rest, ∀ l, j.launch = some l → l.value = 2 :=
        fun j hj => hin j (List.mem_cons_of_mem i hj)
      simpa [run, List.foldl_cons] using ih (OnDataStep s i).1 hrest hstep

/-- Peeling one scoring step: a reason in the accumulated list after a
conditional append was either already there, or is the appended reason
and the predicate held. -/
lemma mem_addIf {c : Prop} [Decidable c] {r x : Reason} {sr : ℕ × List Reason}
    (h : x ∈ (if c then (sr.1 + 1, sr.2 ++ [r]) else sr).2) :
    x ∈ sr.2 ∨ (x = r ∧ c) := by
  split at h
  · rcases List.mem_append.mp h with h1 | h1
    · exact Or.inl h1
    · exact Or.inr ⟨List.mem_singleton.mp h1, by assumption⟩
  · exact Or.inl h

/-- While the `upcoming_launch` flag is cleared, scoring predicate 6
cannot fire: no `launchInDays` reason ever enters the reasons list. -/
lemma no_launchInDays_reason (price : ℚ) (ind : IndicatorSnapshot) (t : TrackerState)
    (ht : t.upcoming_launch = false) (d : ℤ) :
    Reason.launchInDays d ∉ (CalculateSignalScore price ind t).2 := by
  intro hmem
  simp only [CalculateSignalScore] at hmem
  rcases mem_addIf hmem with h7 | ⟨he, _⟩
  · rcases mem_addIf h7 with h6 | ⟨he, hc⟩
    · rcases mem_addIf h6 with h5 | ⟨he, _⟩
      · rcases mem_addIf h5 with h4 | ⟨he, _⟩
        · rcases mem_addIf h4 with h3 | ⟨he, _⟩
          · rcases mem_addIf h3 with h2 | ⟨he, _⟩
            · rcases mem_addIf h2 with h1 | ⟨he, _⟩
              · simp at h1
              · simp at he
            · simp at he
          · simp at he
        · simp at he
      · simp at he
    · rw [ht] at hc
      simp at hc
  · simp at he

/-- Claim C4: every record produced by `Reader` from a well-formed CSV
line carries `Value = 2` (never the upcoming kind `Value = 1`); hence
over any run whose launch records all come from the reader,
`upcoming_launch` stays `false` on every step, and the event-imminent
scoring predicate never contributes a point — no `launchInDays` reason
ever appears in a computed signal score. -/
theorem reader_records_never_upcoming (pd : String → Option ℤ) (line : String)
    (r : LaunchData) (hr : Reader pd line = some r) (inputs : List StepInput)
    (hin : ∀ i ∈ inputs, ∀ l, i.launch = some l → l.value = 2) :
    r.value = 2
    ∧ (run initState inputs).tracker.upcoming_launch = false
    ∧ ∀ (price : ℚ) (ind : IndicatorSnapshot) (d : ℤ),
        Reason.launchInDays d ∉
          (CalculateSignalScore price ind (run initState inputs).tracker).2 := by
  have hup : (run initState inputs).tracker.upcoming_launch = false :=
    run_upcoming_false initState inputs hin rfl
  exact ⟨Reader_value_eq_two pd line r hr, hup,
    fun price ind d => no_launchInDays_reason price ind _ hup d⟩

/-- An all-zero indicator snapshot used to instantiate universally
quantified snapshots in concrete instances. -/
def zeroIndicators : IndicatorSnapshot :=
  { rsi := 0, macd := 0, macd_signal := 0, macd_hist := 0,
    sma_fast := 0, sma_slow := 0, bb_lower := 0, bb_middle := 0,
    rsi_ready := false, macd_ready := false,
    sma_fast_ready := false, sma_slow_ready := false }

/-- Witness for C4: a concrete CSV line parses to a `Value = 2` record,
and the empty run keeps `upcoming_launch` cleared with no launch reason
in the score. -/
theorem reader_records_never_upcoming_witness :
    Reader (fun _ => some 0) "2024-01-01,Electron,42,Success"
      = some { value := 2, mission := "Electron", flightNo := "42",
               outcome := "Success", daysToLaunch := 0, time := 0 }
    ∧ ({ value := 2, mission := "Electron", flightNo := "42",
         outcome := "Success", daysToLaunch := 0, time := 0 } : LaunchData).value = 2
    ∧ (run initState []).tracker.upcoming_launch = false
    ∧ Reason.launchInDays 3 ∉
        (CalculateSignalScore 10 zeroIndicators (run initState []).tracker).2 := by
  have hr : Reader (fun _ => some 0) "2024-01-01,Electron,42,Success"
      = some { value := 2, mission := "Electron", flightNo := "42",
               outcome := "Success", daysToLaunch := 0, time := 0 } := by rfl
  have main := reader_records_never_upcoming (fun _ => some 0)
    "2024-01-01,Electron,42,Success" _ hr [] (by simp)
  exact ⟨hr, main.1, main.2.1, main.2.2 10 zeroIndicators 3⟩

/-- The weekly reset zeroes the counter on a week change and keeps it
otherwise. -/
lemma weeklyReset_trades (s : AlgoState) (w : ℤ) :
    (weeklyReset s w).trades_this_week
      = if w ≠ s.last_week then 0 else s.trades_this_week := by
  unfold weeklyReset
  split_ifs <;> rfl

/-- On any step, the counter after the step is the post-reset counter,
or its successor — and an increment only happens below the cap. -/
lemma OnDataStep_trades (s : AlgoState) (inp : StepInput) :
    (OnDataStep s inp).1.trades_this_week = (weeklyReset s inp.week).trades_this_week
    ∨ ((OnDataStep s inp).1.trades_this_week
          = (weeklyReset s inp.week).trades_this_week + 1
        ∧ (weeklyReset s inp.week).trades_this_week < max_trades_per_week) := by
  simp only [OnDataStep]
  split_ifs with h1 h2 h3 h4 h5 h6 h7
  · exact Or.inl rfl
  · exact Or.inl rfl
  · split
    · exact Or.inl rfl
    · exact Or.inl rfl
  · exact Or.inl rfl
  · exact Or.inl rfl
  · exact Or.inr ⟨rfl, lt_of_not_ge h4⟩
  · exact Or.inl rfl
  · exact Or.inl rfl

/-- The cap is preserved by every step. -/
lemma OnDataStep_trades_le (s : AlgoState) (inp : StepInput)
    (h : s.trades_this_week ≤ max_trades_per_week) :
    (OnDataStep s inp).1.trades_this_week ≤ max_trades_per_week := by
  rcases OnDataStep_trades s inp with heq | ⟨heq, hlt⟩
  · rw [heq, weeklyReset_trades]
    split_ifs
    · exact Nat.zero_le _
    · exact h
  · rw [heq]
    omega

/-- The cap is preserved by every run. -/
lemma run_trades_le (s : AlgoState) (inputs : List StepInput)
    (h : s.trades_this_week ≤ max_trades_per_week) :
    (run s inputs).trades_this_week ≤ max_trades_per_week := by
  induction inputs generalizing s with
  | nil => simpa [run] using h
  | cons i rest ih =>
      simpa [run, List.foldl_cons] using ih (OnDataStep s i).1 (OnDataStep_trades_le s i h)

/-- With the cap already reached and no week change, the step can emit
no buy order. -/
lemma OnDataStep_no_buy_at_cap (s : AlgoState) (inp : StepInput)
    (hweek : inp.week = s.last_week) (hcap : max_trades_per_week ≤ s.trades_this_week)
    (n : ℤ) : (OnDataStep s inp).2 ≠ some (OrderEvent.buy n) := by
  have hres : weeklyReset s inp.week = s := by
    unfold weeklyReset
    rw [if_neg]
    simp [hweek]
  simp only [OnDataStep, hres]
  split_ifs with h1 h2 h3
  · simp
  · simp
  · split <;> simp
  · simp

/-- Claim C6: `trades_this_week` never exceeds `max_trades_per_week`
(per step and over every whole run from the initial state); within one
ISO week the counter is never decremented and a step at the cap cannot
emit an entry order; and on a week change the counter is reset to 0
before entry evaluation, so it ends that step at most at 1. -/
theorem weekly_trade_cap (s : AlgoState) (inp : StepInput) (inputs : List StepInput)
    (hs : s.trades_this_week ≤ max_trades_per_week) :
    ((OnDataStep s inp).1.trades_this_week ≤ max_trades_per_week)
    ∧ (inp.week = s.last_week →
        s.trades_this_week ≤ (OnDataStep s inp).1.trades_this_week)
    ∧ (inp.week ≠ s.last_week → (OnDataStep s inp).1.trades_this_week ≤ 1)
    ∧ (inp.week = s.last_week → max_trades_per_week ≤ s.trades_this_week →
        ∀ n : ℤ, (OnDataStep s inp).2 ≠ some (OrderEvent.buy n))
    ∧ (run initState inputs).trades_this_week ≤ max_trades_per_week := by
  refine ⟨OnDataStep_trades_le s inp hs, ?_, ?_,
    fun hw hcap n => OnDataStep_no_buy_at_cap s inp hw hcap n,
    run_trades_le initState inputs (Nat.zero_le _)⟩
  · intro hw
    rcases OnDataStep_trades s inp with heq | ⟨heq, _⟩ <;>
      rw [heq, weeklyReset_trades] <;> simp [hw]
  · intro hw
    rcases OnDataStep_trades s inp with heq | ⟨heq, _⟩ <;>
      rw [heq, weeklyReset_trades] <;> simp [hw]

/-- A quiet concrete step input used to instantiate the governor
claim: same ISO week as the initial state, no data for the symbol. -/
def govInput : StepInput :=
  { time := 0, week := -1, launch := none, rklb_in_data := false,
    price := 1, cash := 0, ind := zeroIndicators }

/-- Witness for C6 at the initial state and a concrete quiet step. -/
theorem weekly_trade_cap_witness :
    initState.trades_this_week ≤ max_trades_per_week
    ∧ (OnDataStep initState govInput).1.trades_this_week ≤ max_trades_per_week
    ∧ initState.trades_this_week ≤ (OnDataStep initState govInput).1.trades_this_week
    ∧ (run initState []).trades_this_week ≤ max_trades_per_week := by
  have main := weekly_trade_cap initState govInput [] (Nat.zero_le _)
  exact ⟨Nat.zero_le _, main.1, main.2.1 rfl, main.2.2.2.2⟩

/-- Truncation agrees with the floor on nonnegative quotients. -/
lemma pyInt_of_nonneg (q : ℚ) (h : 0 ≤ q) : pyInt q = ⌊q⌋ := if_pos h

/-- The weekly reset never touches the recorded entry price. -/
lemma weeklyReset_entry_price (s : AlgoState) (w : ℤ) :
    (weeklyReset s w).entry_price = s.entry_price := by
  unfold weeklyReset
  split <;> rfl

/-- The weekly reset never touches the recorded entry date. -/
lemma weeklyReset_entry_date (s : AlgoState) (w : ℤ) :
    (weeklyReset s w).entry_date = s.entry_date := by
  unfold weeklyReset
  split <;> rfl

/-- The weekly reset never touches the invested flag. -/
lemma weeklyReset_invested (s : AlgoState) (w : ℤ) :
    (weeklyReset s w).invested = s.invested := by
  unfold weeklyReset
  split <;> rfl

/-- Claim C8: on a flat step with the weekly cap unreached, indicators
ready and a positive price, an entry happens exactly when the signal
score is at least 3 and `floor(availableCash * 0.95 / price)` is
positive; it buys exactly that many shares, records entry price and
date, and bumps the weekly counter by one — otherwise no order is
emitted and the position state is untouched. -/
theorem entry_rule (s : AlgoState) (inp : StepInput)
    (hflat : s.invested = false)
    (hweek : inp.week = s.last_week)
    (hcap : s.trades_this_week < max_trades_per_week)
    (hready : indicatorsReady inp.ind = true)
    (hdata : inp.rklb_in_data = true)
    (hprice : 0 < inp.price)
    (hcash : 0 ≤ inp.cash) :
    ((3 ≤ (CalculateSignalScore inp.price inp.ind
            (processLaunchEvents s.tracker inp.launch)).1
        ∧ 0 < ⌊inp.cash * 0.95 / inp.price⌋) →
      ((OnDataStep s inp).2
          = some (OrderEvent.buy ⌊inp.cash * 0.95 / inp.price⌋)
        ∧ (OnDataStep s inp).1.entry_price = inp.price
        ∧ (OnDataStep s inp).1.entry_date = some inp.time
        ∧ (OnDataStep s inp).1.invested = true
        ∧ (OnDataStep s inp).1.trades_this_week = s.trades_this_week + 1))
    ∧ ((¬(3 ≤ (CalculateSignalScore inp.price inp.ind
            (processLaunchEvents s.tracker inp.launch)).1)
        ∨ ¬(0 < ⌊inp.cash * 0.95 / inp.price⌋)) →
      ((OnDataStep s inp).2 = none
        ∧ (OnDataStep s inp).1.invested = false
        ∧ (OnDataStep s inp).1.entry_price = s.entry_price
        ∧ (OnDataStep s inp).1.entry_date = s.entry_date
        ∧ (OnDataStep s inp).1.trades_this_week = s.trades_this_week)) := by
  have hq : (0 : ℚ) ≤ inp.cash * 0.95 / inp.price :=
    div_nonneg (mul_nonneg hcash (by norm_num)) (le_of_lt hprice)
  have hres : weeklyReset s inp.week = s := by
    unfold weeklyReset
    rw [if_neg]
    simp [hweek]
  have hd : ¬ (inp.rklb_in_data = false) := by simp [hdata]
  have hnp : ¬ (inp.price ≤ 0) := not_le.mpr hprice
  have hinv : ¬ (s.invested = true) := by simp [hflat]
  have hncap : ¬ (max_trades_per_week ≤ s.trades_this_week) := not_le.mpr hcap
  have hrdy : ¬ (indicatorsReady inp.ind = false) := by simp [hready]
  constructor
  · rintro ⟨h3, hsh⟩
    simp only [OnDataStep, hres, pyInt_of_nonneg _ hq]
    split_ifs
    exact ⟨rfl, rfl, rfl, rfl, rfl⟩
  · intro hneg
    simp only [OnDataStep, hres, pyInt_of_nonneg _ hq]
    rcases hneg with h3 | hsh
    · split_ifs
      exact ⟨rfl, hflat, rfl, rfl, rfl⟩
    · by_cases h3 : 3 ≤ (CalculateSignalScore inp.price inp.ind
          (processLaunchEvents s.tracker inp.launch)).1
      · split_ifs
        exact ⟨rfl, hflat, rfl, rfl, rfl⟩
      · split_ifs
        exact ⟨rfl, hflat, rfl, rfl, rfl⟩

/-- A concrete step input on which four scoring predicates hold and a
buy of 95 shares follows. -/
def entryInput : StepInput :=
  { time := 0, week := -1, launch := none, rklb_in_data := true,
    price := 10, cash := 1000,
    ind := { rsi := 40, macd := 1, macd_signal := 0, macd_hist := 1,
             sma_fast := 9, sma_slow := 8, bb_lower := 0, bb_middle := 0,
             rsi_ready := true, macd_ready := true,
             sma_fast_ready := true, sma_slow_ready := true } }

/-- Witness for C8: from the initial state, the concrete input scores
at least 3 and triggers a buy that bumps the weekly counter. -/
theorem entry_rule_witness :
    initState.invested = false
    ∧ 3 ≤ (CalculateSignalScore entryInput.price entryInput.ind
        (processLaunchEvents initState.tracker entryInput.launch)).1
    ∧ 0 < ⌊entryInput.cash * 0.95 / entryInput.price⌋
    ∧ (OnDataStep initState entryInput).2
        = some (OrderEvent.buy ⌊entryInput.cash * 0.95 / entryInput.price⌋)
    ∧ (OnDataStep initState entryInput).1.trades_this_week
        = initState.trades_this_week + 1 := by
  have h3 : 3 ≤ (CalculateSignalScore entryInput.price entryInput.ind
      (processLaunchEvents initState.tracker entryInput.launch)).1 := by
    norm_num [CalculateSignalScore, processLaunchEvents, initState, entryInput]
  have hsh : 0 < ⌊entryInput.cash * 0.95 / entryInput.price⌋ := by
    norm_num [entryInput]
  have main := entry_rule initState entryInput rfl rfl
    (by norm_num [initState, max_trades_per_week]) rfl rfl
    (by norm_num [entryInput]) (by norm_num [entryInput])
  exact ⟨rfl, h3, hsh, (main.1 ⟨h3, hsh⟩).1, (main.1 ⟨h3, hsh⟩).2.2.2.2⟩

/-- Claim C10: a non-positive current price, or a non-positive entry
price on an open position, makes the step a defensive no-op — no exit
or entry intent is emitted, the position fields are unchanged, and the
pnl division is never reached (`ManagePosition` bails out before it). -/
theorem defensive_noop (s : AlgoState) (inp : StepInput) (e p : ℚ) (ed : Option ℤ)
    (now : ℤ) :
    (e ≤ 0 → ManagePosition e ed now p = none)
    ∧ (inp.price ≤ 0 → inp.rklb_in_data = true →
        (OnDataStep s inp).2 = none
        ∧ (OnDataStep s inp).1.entry_price = s.entry_price
        ∧ (OnDataStep s inp).1.entry_date = s.entry_date
        ∧ (OnDataStep s inp).1.invested = s.invested)
    ∧ (s.invested = true → s.entry_price ≤ 0 →
        (OnDataStep s inp).2 = none
        ∧ (OnDataStep s inp).1.entry_price = s.entry_price
        ∧ (OnDataStep s inp).1.entry_date = s.entry_date
        ∧ (OnDataStep s inp).1.invested = s.invested) := by
  refine ⟨?_, ?_, ?_⟩
  · intro h
    unfold ManagePosition
    rw [if_pos h]
  · intro hp hd
    have hd1 : ¬ (inp.rklb_in_data = false) := by simp [hd]
    simp only [OnDataStep, weeklyReset_entry_price, weeklyReset_entry_date,
      weeklyReset_invested]
    split_ifs
    exact ⟨rfl, rfl, rfl, rfl⟩
  · intro hi he
    have hmp : ManagePosition s.entry_price s.entry_date inp.time inp.price = none := by
      unfold ManagePosition
      rw [if_pos he]
    simp only [OnDataStep, weeklyReset_entry_price, weeklyReset_entry_date,
      weeklyReset_invested]
    split_ifs <;> simp [hmp]

/-- A concrete zero-price step input. -/
def noopInput : StepInput :=
  { time := 0, week := 0, launch := none, rklb_in_data := true,
    price := 0, cash := 0, ind := zeroIndicators }

/-- Witness for C10: a zero entry price yields no exit, and a
zero-price bar leaves the initial position untouched with no order. -/
theorem defensive_noop_witness :
    ManagePosition 0 none 0 5 = none
    ∧ (OnDataStep initState noopInput).2 = none
    ∧ (OnDataStep initState noopInput).1.entry_price = initState.entry_price
    ∧ (OnDataStep initState noopInput).1.invested = initState.invested := by
  have main := defensive_noop initState noopInput 0 5 none 0
  have part2 := main.2.1 (le_refl (0 : ℚ)) rfl
  exact ⟨main.1 (le_refl (0 : ℚ)), part2.1, part2.2.1, part2.2.2.2⟩
